import Mathlib

/-!
Verification of the change-cache engine of `electron-compile`
(`src/file-change-cache.js`), shallowly embedded.

JavaScript strings are modelled as lists of UTF-16 code units
(`List Nat`, each unit below 2^16), matching `charCodeAt` semantics;
byte buffers are lists of bytes (`List Nat`, each below 256). Functions
from the platform (Node `Buffer` decoding, `zlib`, `crypto`, `JSON`)
are not code of this repository; they are modelled faithfully enough
for the properties at stake and documented where they appear.
-/

namespace ElectronCompile

/-- Loop of `containsControlCharacters` (src lines 184-189): walks the
string, counts code units that are `=== 65536` or `< 8`, returning
`true` (binary garbage) as soon as the count exceeds 16.  `len` is the
full length of the original string, used by the final ratio check
(src lines 191-192): zero weird characters means `false`; otherwise the
code returns `(controlCount / str.length) < 0.02`, which for counts up
to 16 and any attainable JS string length agrees exactly with the
integer comparison `50 * count < len`. -/
def ccLoop (len : Nat) : List Nat → Nat → Bool
  | [], count => if count = 0 then false else decide (50 * count < len)
  | c :: rest, count =>
    let count2 := if c = 65536 ∨ c < 8 then count + 1 else count
    if count2 > 16 then true else ccLoop len rest count2

/-- `FileChangedCache.containsControlCharacters(str)` (src lines 181-193). -/
def containsControlCharacters (str : List Nat) : Bool :=
  ccLoop str.length str 0

/-- Newline-counting loop of `contentsAreMinified` (src lines 147-149):
note it runs over the WHOLE string `source`, not the 1024-truncated
window. -/
def newlineLoop : List Nat → Nat → Nat
  | [], acc => acc
  | c :: rest, acc => newlineLoop rest (if c = 10 then acc + 1 else acc)

/-- `FileChangedCache.contentsAreMinified(source)` (src lines 140-158):
`length` is capped at 1024, newlines are counted over the entire
string; with no newlines the result is `length > 80`, otherwise
`length / newlineCount > 80`.  The JS division is on doubles, but with
`length ≤ 1024` the comparison coincides exactly with the integer
comparison `length > 80 * newlineCount`. -/
def contentsAreMinified (source : List Nat) : Bool :=
  let length := if source.length > 1024 then 1024 else source.length
  let newlineCount := newlineLoop source 0
  if newlineCount = 0 then decide (length > 80)
  else decide (length > 80 * newlineCount)

/-- Path separator characters matched by the character class in the
regexes of `isInNodeModules` (src line 161). -/
def isPathSep (c : Char) : Bool := c = '/' || c = '\\'

/-- Match of the regex `[\\\/]node_modules[\\\/]` (case-insensitive)
anchored at the head of the given character list. -/
def nodeModulesMatchAt : List Char → Bool
  | c :: rest =>
    isPathSep c &&
    ((rest.take 12).map Char.toLower = "node_modules".toList) &&
    (match rest.drop 12 with
     | d :: _ => isPathSep d
     | [] => false)
  | [] => false

/-- Match of the regex `[\\\/]atom\.asar` (case-sensitive) anchored at
the head of the given character list. -/
def atomAsarMatchAt : List Char → Bool
  | c :: rest => isPathSep c && "atom.asar".toList.isPrefixOf rest
  | [] => false

/-- Unanchored regex search: does the pattern match at some suffix? -/
def anySuffix (p : List Char → Bool) : List Char → Bool
  | [] => p []
  | c :: rest => p (c :: rest) || anySuffix p rest

/-- `FileChangedCache.isInNodeModules(filePath)` (src lines 160-162). -/
def isInNodeModules (filePath : String) : Bool :=
  anySuffix nodeModulesMatchAt filePath.toList ||
  anySuffix atomAsarMatchAt filePath.toList

/-- Code units of the marker string `'//# sourceMap'` (src line 165). -/
def sourceMapMarker : List Nat :=
  [47, 47, 35, 32, 115, 111, 117, 114, 99, 101, 77, 97, 112]

/-- JS `String.prototype.lastIndexOf` for a string pattern: the largest
index at which the pattern occurs, `-1` when it does not occur. -/
def lastIndexOf (s pat : List Nat) : Int :=
  match ((List.range (s.length + 1)).filter
      (fun i => pat.isPrefixOf (List.drop i s))).getLast? with
  | some i => (i : Int)
  | none => -1

/-- `FileChangedCache.hasSourceMap(sourceCode)` (src lines 164-166). -/
def hasSourceMap (sourceCode : List Nat) : Bool :=
  lastIndexOf sourceCode sourceMapMarker > lastIndexOf sourceCode [10]

/-- The two members of the `encodings` array of `detectFileEncoding`
(src line 172). -/
inductive Encoding where
  | utf8
  | utf16le
deriving DecidableEq

/-- Value returned by `detectFileEncoding` (src lines 168-179): the
literal boolean `true` for an empty buffer (src line 169), an encoding
name when `_.find` locates one, or `undefined` when it does not. -/
inductive EncodingResult where
  | boolTrue
  | enc (e : Encoding)
  | undefined
deriving DecidableEq

/-- UTF-8 decoding of a byte list into UTF-16 code units, modelling
Node `buf.toString('utf8')` (platform behaviour, not repository code):
invalid or truncated sequences produce the replacement character
U+FFFD, supplementary code points produce surrogate pairs.  The `fuel`
argument (instantiated with the list length) only serves termination. -/
def utf8DecodeAux : Nat → List Nat → List Nat
  | 0, _ => []
  | _, [] => []
  | fuel + 1, b :: rest =>
    if b < 0x80 then b :: utf8DecodeAux fuel rest
    else if 0xC2 ≤ b && b ≤ 0xDF then
      match rest with
      | b2 :: rest2 =>
        if 0x80 ≤ b2 && b2 ≤ 0xBF then
          ((b - 0xC0) * 64 + (b2 - 0x80)) :: utf8DecodeAux fuel rest2
        else 0xFFFD :: utf8DecodeAux fuel rest
      | [] => [0xFFFD]
    else if 0xE0 ≤ b && b ≤ 0xEF then
      match rest with
      | b2 :: b3 :: rest3 =>
        let lo2 := if b = 0xE0 then 0xA0 else 0x80
        let hi2 := if b = 0xED then 0x9F else 0xBF
        if (lo2 ≤ b2 && b2 ≤ hi2) && (0x80 ≤ b3 && b3 ≤ 0xBF) then
          ((b - 0xE0) * 4096 + (b2 - 0x80) * 64 + (b3 - 0x80)) ::
            utf8DecodeAux fuel rest3
        else 0xFFFD :: utf8DecodeAux fuel rest
      | _ => 0xFFFD :: utf8DecodeAux fuel rest
    else if 0xF0 ≤ b && b ≤ 0xF4 then
      match rest with
      | b2 :: b3 :: b4 :: rest4 =>
        let lo2 := if b = 0xF0 then 0x90 else 0x80
        let hi2 := if b = 0xF4 then 0x8F else 0xBF
        if (lo2 ≤ b2 && b2 ≤ hi2) && (0x80 ≤ b3 && b3 ≤ 0xBF) &&
            (0x80 ≤ b4 && b4 ≤ 0xBF) then
          let cp := (b - 0xF0) * 262144 + (b2 - 0x80) * 4096 +
            (b3 - 0x80) * 64 + (b4 - 0x80)
          (0xD800 + (cp - 0x10000) / 0x400) ::
            (0xDC00 + (cp - 0x10000) % 0x400) :: utf8DecodeAux fuel rest4
        else 0xFFFD :: utf8DecodeAux fuel rest
      | _ => 0xFFFD :: utf8DecodeAux fuel rest
    else 0xFFFD :: utf8DecodeAux fuel rest

/-- UTF-8 decoding at full fuel. -/
def utf8Decode (bytes : List Nat) : List Nat :=
  utf8DecodeAux bytes.length bytes

/-- UTF-16LE decoding of a byte list into code units, modelling Node
`buf.toString('utf16le')` (platform behaviour): bytes are paired
little-endian and a trailing odd byte is dropped. -/
def utf16leDecode : List Nat → List Nat
  | b1 :: b2 :: rest => (b1 + 256 * b2) :: utf16leDecode rest
  | _ => []

/-- `buf.toString(encoding)` for the two supported encodings. -/
def bufToString (buf : List Nat) : Encoding → List Nat
  | .utf8 => utf8Decode buf
  | .utf16le => utf16leDecode buf

/-- UTF-8 encoding of a list of UTF-16 code units into bytes,
modelling Node `Buffer.from(str, 'utf8')` (used by
`hash.update(sourceCode, 'utf8')`): surrogate pairs combine into
supplementary code points, unpaired surrogates become the replacement
character's bytes `EF BF BD`.  `fuel` (the list length) only serves
termination. -/
def utf8EncodeAux : Nat → List Nat → List Nat
  | 0, _ => []
  | _, [] => []
  | fuel + 1, u :: rest =>
    if u < 0x80 then u :: utf8EncodeAux fuel rest
    else if u < 0x800 then
      (0xC0 + u / 64) :: (0x80 + u % 64) :: utf8EncodeAux fuel rest
    else if 0xD800 ≤ u && u ≤ 0xDBFF then
      match rest with
      | u2 :: rest2 =>
        if 0xDC00 ≤ u2 && u2 ≤ 0xDFFF then
          let cp := 0x10000 + (u - 0xD800) * 0x400 + (u2 - 0xDC00)
          (0xF0 + cp / 262144) :: (0x80 + cp / 4096 % 64) ::
            (0x80 + cp / 64 % 64) :: (0x80 + cp % 64) ::
            utf8EncodeAux fuel rest2
        else 0xEF :: 0xBF :: 0xBD :: utf8EncodeAux fuel rest
      | [] => [0xEF, 0xBF, 0xBD]
    else if 0xDC00 ≤ u && u ≤ 0xDFFF then
      0xEF :: 0xBF :: 0xBD :: utf8EncodeAux fuel rest
    else
      (0xE0 + u / 4096) :: (0x80 + u / 64 % 64) :: (0x80 + u % 64) ::
        utf8EncodeAux fuel rest

/-- UTF-8 encoding at full fuel. -/
def utf8Encode (units : List Nat) : List Nat :=
  utf8EncodeAux units.length units

/-- Digest of the `crypto` library's SHA-1 (`createHash('sha1')`,
platform code, not part of this repository), modelled as a concrete
injective-in-practice digest of the input byte stream; every claim
about hashing only needs that the digest is a function of the bytes
fed to `update`. -/
def sha1Digest (bytes : List Nat) : Nat :=
  bytes.foldl (fun h b => (h * 257 + b % 256 + 1) % 2 ^ 160) 0

/-- `FileChangedCache.detectFileEncoding(buffer)` (src lines 168-179):
empty buffer returns the literal `true`; otherwise at most the first
4096 bytes are inspected and `_.find` returns the first encoding whose
decode does not contain control characters, or `undefined`. -/
def detectFileEncoding (buffer : List Nat) : EncodingResult :=
  if buffer.length < 1 then .boolTrue
  else
    let buf := buffer.take 4096
    match [Encoding.utf8, Encoding.utf16le].find?
        (fun x => !containsControlCharacters (bufToString buf x)) with
    | some e => .enc e
    | none => .undefined

/-- Result record of `calculateHashForFile` (src lines 116, 122):
`{digest, sourceCode, binaryData}` with `sourceCode`/`binaryData`
null (`none`) in the opposite branches. -/
structure HashResult where
  digest : Nat
  sourceCode : Option (List Nat)
  binaryData : Option (List Nat)
deriving DecidableEq

/-- Model of `fs.readFile(path, encoding)` on a file whose raw bytes
are `buf` (filesystem collaborator, spec section 6): a string encoding
yields the decoded text; a non-string options value (the `true`
returned by `detectFileEncoding` for an empty buffer) makes Node's
options validation throw, which the error value records. -/
def readWithEncoding (buf : List Nat) : EncodingResult → Except EncodingResult (List Nat)
  | .enc e => .ok (bufToString buf e)
  | r => .error r

/-- `calculateHashForFile` / `calculateHashForFileSync`
(src lines 110-138), as a function of the file's raw bytes: when
`detectFileEncoding` returns a falsy value (`undefined`, i.e. `.undefined`;
`true` and the encoding names are truthy) the raw bytes are hashed and
returned as `binaryData`; otherwise the file is re-read with the
detected encoding value and the decoded text is hashed through its
UTF-8 bytes (`update(sourceCode, 'utf8')`). -/
def calculateHashForFile (buf : List Nat) : Except EncodingResult HashResult :=
  let encoding := detectFileEncoding buf
  if encoding = .undefined then
    .ok ⟨sha1Digest buf, none, some buf⟩
  else
    match readWithEncoding buf encoding with
    | .error r => .error r
    | .ok sourceCode => .ok ⟨sha1Digest (utf8Encode sourceCode), some sourceCode, none⟩

/-- The `info` record built on a cache miss (src lines 49-55). -/
structure FileInfo where
  hash : Nat
  isMinified : Bool
  isInNodeModules : Bool
  hasSourceMap : Bool
  isFileBinary : Bool
deriving DecidableEq

/-- One value of the `changeCache` object: `{ ctime, size, info }`
(src line 57). -/
structure CacheEntry where
  ctime : Nat
  size : Nat
  info : FileInfo
deriving DecidableEq

/-- The `changeCache` JS object, as an association list in property
insertion order with unique keys maintained by the update operation. -/
abbrev ChangeCache := List (String × CacheEntry)

/-- JS property read `obj[key]`: `none` models `undefined`. -/
def objGet : ChangeCache → String → Option CacheEntry
  | [], _ => none
  | (k, v) :: rest, key => if k = key then some v else objGet rest key

/-- JS property write `obj[key] = v`: overwrites in place, else appends. -/
def objSet : ChangeCache → String → CacheEntry → ChangeCache
  | [], key, v => [(key, v)]
  | (k, w) :: rest, key, v =>
    if k = key then (k, v) :: rest else (k, w) :: objSet rest key v

/-- JS `delete obj[key]`. -/
def objDelete (m : ChangeCache) (key : String) : ChangeCache :=
  m.filter (fun kv => kv.1 != key)

/-- Replace the first occurrence of `pat` in a character list by
nothing, modelling JS `String.prototype.replace` with a string (not
regex) pattern and an empty replacement. -/
def replaceFirstAux (pat : List Char) : List Char → List Char
  | [] => []
  | c :: rest =>
    if pat.isPrefixOf (c :: rest) then (c :: rest).drop pat.length
    else c :: replaceFirstAux pat rest

/-- JS `s.replace(pat, '')` for a string pattern. -/
def jsReplace (s pat : String) : String :=
  ⟨replaceFirstAux pat.toList s.toList⟩

/-- The value held in `this.appRoot`: the constructor (src line 11)
stores whatever was passed — a path string from normal construction,
or the boolean `failOnCacheMiss` argument that `loadFromFile`
(src line 18) passes in the `appRoot` position, or `undefined`. -/
inductive AppRootVal where
  | str (s : String)
  | boolVal (b : Bool)
  | undefVal
deriving DecidableEq

/-- The cache key computation (src lines 26, 66):
`this.appRoot ? absoluteFilePath.replace(this.appRoot, '') :
absoluteFilePath`, with JS truthiness (the empty string and `false`
and `undefined` are falsy) and JS string coercion of a non-string
`appRoot` inside `replace` (the boolean `true` coerces to `"true"`). -/
def cacheKeyOf : AppRootVal → String → String
  | .str s, path => if s = "" then path else jsReplace path s
  | .boolVal true, path => jsReplace path "true"
  | .boolVal false, path => path
  | .undefVal, path => path

/-- Result of `fs.stat` on an existing path (filesystem collaborator,
spec section 6): `ctime.getTime()` in milliseconds, `size`, and
`isFile()`. -/
structure FileStat where
  ctime : Nat
  size : Nat
  isFile : Bool
deriving DecidableEq

/-- The value returned (or error thrown) by `getHashForPath`
(src lines 25-63). -/
inductive LookupResult where
  | cacheMissError (path : String)
  | statError (path : String)
  | hit (info : FileInfo)
  | textResult (sourceCode : List Nat) (info : FileInfo)
  | binaryResult (binaryData : List Nat) (info : FileInfo)
  | readErrorResult (enc : EncodingResult)
deriving DecidableEq

/-- Full outcome of one `getHashForPath` call: the returned value or
error, the `changeCache` state after the call, and instrumentation
counting the `fs.stat` calls and the `fs.readFile` content reads the
call performed. -/
structure LookupOutcome where
  result : LookupResult
  cache : ChangeCache
  statCalls : Nat
  readCalls : Nat
deriving DecidableEq

/-- The miss tail of `getHashForPath` (src lines 47-62): derive facts
from the file content, store `{ctime, size, info}` under the cache
key, and return the info extended with `sourceCode` or `binaryData`.
`calculateHashForFile` reads the file once in the binary case and
twice in the text case (src lines 111, 119). -/
def missPath (path cacheKey : String) (cache : ChangeCache)
    (ctime size : Nat) (content : List Nat) : LookupOutcome :=
  match calculateHashForFile content with
  | .error r => ⟨.readErrorResult r, cache, 1, 2⟩
  | .ok h =>
    let sc := h.sourceCode.getD []
    let info : FileInfo :=
      { hash := h.digest
        isMinified := contentsAreMinified sc
        isInNodeModules := isInNodeModules path
        hasSourceMap := hasSourceMap sc
        isFileBinary := h.binaryData.isSome }
    let cache2 := objSet cache cacheKey ⟨ctime, size, info⟩
    match h.binaryData with
    | some bd => ⟨.binaryResult bd info, cache2, 1, 1⟩
    | none => ⟨.textResult (h.sourceCode.getD []) info, cache2, 1, 2⟩

/-- `getHashForPath` / `getHashForPathSync` (src lines 25-63, 65-103),
as a function of the instance fields, the path, the stat the
filesystem would report (`none` when `fs.stat` rejects) and the file's
raw bytes.  Strict mode (`failOnCacheMiss`) returns or throws before
any filesystem access; permissive mode stats, then either hits on
`storedCtime ≥ ctime ∧ storedSize = size`, or recomputes — after
executing `delete this.changeCache.cacheEntry` (src line 44), which
removes the entry stored under the literal property name
`"cacheEntry"`, not the computed cache key. -/
def getHashForPath (appRoot : AppRootVal) (failOnCacheMiss : Bool)
    (changeCache : ChangeCache) (path : String)
    (fileStat : Option FileStat) (content : List Nat) : LookupOutcome :=
  let cacheKey := cacheKeyOf appRoot path
  let cacheEntry := objGet changeCache cacheKey
  if failOnCacheMiss then
    match cacheEntry with
    | none => ⟨.cacheMissError path, changeCache, 0, 0⟩
    | some e => ⟨.hit e.info, changeCache, 0, 0⟩
  else
    match fileStat with
    | none => ⟨.statError path, changeCache, 1, 0⟩
    | some st =>
      if !st.isFile then ⟨.statError path, changeCache, 1, 0⟩
      else
        match cacheEntry with
        | some e =>
          if e.ctime ≥ st.ctime ∧ e.size = st.size then
            ⟨.hit e.info, changeCache, 1, 0⟩
          else
            missPath path cacheKey (objDelete changeCache "cacheEntry")
              st.ctime st.size content
        | none => missPath path cacheKey changeCache st.ctime st.size content

/-- The cache instance: the three fields set by the constructor
(src lines 11-15). -/
structure FileChangedCache where
  appRoot : AppRootVal
  failOnCacheMiss : Bool
  changeCache : ChangeCache
deriving DecidableEq

/-- Structured values produced by `JSON.stringify` and consumed by
`JSON.parse` (platform code): this mapping only ever serializes
strings, integers, booleans and objects. -/
inductive Json where
  | str (s : String)
  | num (n : Nat)
  | bool (b : Bool)
  | obj (fields : List (String × Json))

/-- Serialization of the `info` record, field for field in property
order. -/
def infoToJson (i : FileInfo) : Json :=
  .obj [("hash", .num i.hash), ("isMinified", .bool i.isMinified),
    ("isInNodeModules", .bool i.isInNodeModules),
    ("hasSourceMap", .bool i.hasSourceMap),
    ("isFileBinary", .bool i.isFileBinary)]

/-- Serialization of one cache entry. -/
def entryToJson (e : CacheEntry) : Json :=
  .obj [("ctime", .num e.ctime), ("size", .num e.size),
    ("info", infoToJson e.info)]

/-- `JSON.stringify(this.changeCache)` (src line 106) as a structured
value. -/
def stringifyCache (m : ChangeCache) : Json :=
  .obj (m.map (fun kv => (kv.1, entryToJson kv.2)))

/-- Inverse of `infoToJson`, the shape `JSON.parse` rebuilds. -/
def parseInfo : Json → Option FileInfo
  | .obj [("hash", .num h), ("isMinified", .bool m),
      ("isInNodeModules", .bool n), ("hasSourceMap", .bool s),
      ("isFileBinary", .bool b)] => some ⟨h, m, n, s, b⟩
  | _ => none

/-- Inverse of `entryToJson`. -/
def parseEntry : Json → Option CacheEntry
  | .obj [("ctime", .num c), ("size", .num s), ("info", j)] =>
    (parseInfo j).map (fun i => ⟨c, s, i⟩)
  | _ => none

/-- Parse each property of a serialized mapping back into an entry. -/
def parseFields : List (String × Json) → Option ChangeCache
  | [] => some []
  | (k, v) :: rest =>
    match parseEntry v, parseFields rest with
    | some e, some m => some ((k, e) :: m)
    | _, _ => none

/-- `JSON.parse` of a serialized mapping (src line 21). -/
def parseCache : Json → Option ChangeCache
  | .obj fields => parseFields fields
  | _ => none

/-- Modelled from the spec: `zlib.gzip` output (src line 106).  The
zlib library is external to this repository and spec section 6 only
requires a general-purpose lossless compression, so the compressed
buffer is modelled as a payload-preserving wrapper around the
serialized value. -/
structure GzBuffer where
  payload : Json

/-- Modelled from the spec: `zlib.gzip` — lossless compression. -/
def gzipJson (j : Json) : GzBuffer := ⟨j⟩

/-- Modelled from the spec: `zlib.gunzip` — lossless decompression,
the exact inverse of `gzipJson`. -/
def gunzipJson (b : GzBuffer) : Json := b.payload

/-- `save(filePath)` (src lines 105-108): gzip the JSON serialization
of `changeCache` (the write of the resulting bytes to disk is the
filesystem collaborator's). -/
def save (c : FileChangedCache) : GzBuffer :=
  gzipJson (stringifyCache c.changeCache)

/-- `loadFromFile(file, failOnCacheMiss=true)` (src lines 17-23), as a
function of the compressed bytes read from the file.  Note the source
calls `new FileChangedCache(failOnCacheMiss)`: the flag lands in the
constructor's `appRoot` parameter and the constructor's own
`failOnCacheMiss` parameter takes its default `false`.  `none` models
a `JSON.parse`/`gunzip` failure (`DeserializationError`). -/
def loadFromFile (buf : GzBuffer) (failOnCacheMiss : Bool := true) :
    Option FileChangedCache :=
  let ret : FileChangedCache :=
    { appRoot := .boolVal failOnCacheMiss, failOnCacheMiss := false,
      changeCache := [] }
  (parseCache (gunzipJson buf)).map (fun m => { ret with changeCache := m })

/-! ## Theorems about the claims -/

set_option maxRecDepth 100000

/-- C2 (counter-evidence): the claim says the classifier declares text
exactly when the control count is zero or the ratio is below 2%, and
binary in all remaining cases.  The code is inverted on the nonzero
branch: a string of three control characters and one letter (ratio
75%) is declared clean/text, while 99 letters followed by a single
control character (ratio 1%) is declared binary garbage. -/
theorem c2_ratio_check_inverted :
    containsControlCharacters [1, 1, 1, 97] = false ∧
    containsControlCharacters (List.replicate 99 97 ++ [1]) = true := by
  decide

/-- C3 (counter-evidence): `loadFromFile` with the default
`failOnCacheMiss=true` produces an instance whose `failOnCacheMiss`
field is `false` (and whose `appRoot` is the boolean `true`), because
the flag is passed in the constructor's `appRoot` position; the claim
says the loaded instance has strict mode enabled. -/
theorem c3_loaded_instance_not_strict :
    loadFromFile (save ⟨.undefVal, false, []⟩) =
      some ⟨.boolVal true, false, []⟩ := rfl

/-- C10: for a zero-length file, `detectFileEncoding` returns the
literal boolean `true` rather than an encoding name or `undefined`, so
`calculateHashForFile` never takes its binary branch on empty input
and instead passes the sentinel straight into the `fs.readFile` call
as its encoding argument (where the error value records it). -/
theorem c10_empty_buffer_sentinel :
    detectFileEncoding [] = .boolTrue ∧
    calculateHashForFile [] = .error .boolTrue :=
  ⟨rfl, rfl⟩

/-- Concrete facts record reused by the C4 counterexample cache. -/
def c4Info : FileInfo := ⟨0, false, false, false, false⟩

/-- The cache state of the C4 counterexample: a stale entry for
`"/a.js"` plus an unrelated entry stored under the key
`"cacheEntry"`. -/
def c4Cache : ChangeCache :=
  [("/a.js", ⟨3, 5, c4Info⟩), ("cacheEntry", ⟨7, 7, c4Info⟩)]

/-- C4 (counter-evidence): a permissive stale lookup of `"/a.js"`
(stored ctime 3 < current ctime 10) replaces the entry under its own
key but ALSO deletes the unrelated entry stored under the literal key
`"cacheEntry"`, because the eviction statement is
`delete this.changeCache.cacheEntry`; the claim says no key other than
the looked-up key is removed or modified. -/
theorem c4_unrelated_entry_deleted :
    objGet c4Cache "cacheEntry" = some ⟨7, 7, c4Info⟩ ∧
    cacheKeyOf .undefVal "/a.js" ≠ "cacheEntry" ∧
    (objGet (getHashForPath .undefVal false c4Cache "/a.js"
      (some ⟨10, 5, true⟩) [120]).cache "cacheEntry" = none) ∧
    (objGet (getHashForPath .undefVal false c4Cache "/a.js"
      (some ⟨10, 5, true⟩) [120]).cache "/a.js").isSome = true := by
  refine ⟨rfl, by decide, ?_, ?_⟩ <;> rfl

/-- Bytes of the text `hello` stored in UTF-8. -/
def utf8HelloBytes : List Nat := [104, 101, 108, 108, 111]

/-- Bytes of the text `hello` stored in UTF-16LE. -/
def utf16leHelloBytes : List Nat :=
  [104, 0, 101, 0, 108, 0, 108, 0, 111, 0]

/-- Digest projection of a `calculateHashForFile` outcome. -/
def digestOf : Except EncodingResult HashResult → Option Nat
  | .ok h => some h.digest
  | .error _ => none

/-- Binary-classification projection of a `calculateHashForFile`
outcome: `some true` means the binary branch was taken. -/
def isBinaryOf : Except EncodingResult HashResult → Option Bool
  | .ok h => some h.binaryData.isSome
  | .error _ => none

/-- Decoded-text projection of a `calculateHashForFile` outcome. -/
def sourceCodeOf : Except EncodingResult HashResult → Option (List Nat)
  | .ok h => h.sourceCode
  | .error _ => none

/-- C8 (counter-evidence): the two buffers hold the same text `hello`
in UTF-8 and UTF-16LE (their intended decodings agree), both are
classified as text, yet their digests differ: the inverted ratio check
of `containsControlCharacters` accepts the UTF-8 decode of the
UTF-16LE bytes (50% NUL characters) as clean, so the file is decoded
as UTF-8 into `h\0e\0l\0l\0o\0` and a different byte stream reaches
the hash; the claim says both files receive the same content hash. -/
theorem c8_same_text_different_hash :
    utf8Decode utf8HelloBytes = utf16leDecode utf16leHelloBytes ∧
    isBinaryOf (calculateHashForFile utf8HelloBytes) = some false ∧
    isBinaryOf (calculateHashForFile utf16leHelloBytes) = some false ∧
    sourceCodeOf (calculateHashForFile utf16leHelloBytes) =
      some [104, 0, 101, 0, 108, 0, 108, 0, 111, 0] ∧
    digestOf (calculateHashForFile utf8HelloBytes) ≠
      digestOf (calculateHashForFile utf16leHelloBytes) := by
  refine ⟨rfl, rfl, rfl, rfl, ?_⟩
  decide

/-- The minification classifier as the claim words it (window of 1024
characters for BOTH the length and the newline count); written from
the claim, for comparison with `contentsAreMinified`, which is written
from the source. -/
def contentsAreMinifiedSpec (source : List Nat) : Bool :=
  let window := source.take 1024
  let newlineCount := window.count 10
  if newlineCount = 0 then decide (window.length > 80)
  else decide (window.length > 80 * newlineCount)

/-- Input separating the claim's window-based newline count from the
code's whole-string count: 1024 non-newline characters followed by 20
newlines. -/
def c5Input : List Nat := List.replicate 1024 97 ++ List.replicate 20 10

/-- C5 (counterexample): on 1024 letters followed by 20 newlines the
claim's window-based rule sees zero newlines in the window and window
length 1024 > 80, classifying minified; the code counts the 20
newlines beyond the window, computes average 1024/20 ≤ 80, and
classifies not minified. -/
theorem c5_counterexample :
    contentsAreMinifiedSpec c5Input = true ∧
    contentsAreMinified c5Input = false := by
  constructor <;> decide

/-- The newline loop computes `acc` plus the number of newlines. -/
theorem newlineLoop_eq_count (l : List Nat) (acc : Nat) :
    newlineLoop l acc = acc + l.count 10 := by
  induction l generalizing acc with
  | nil => simp [newlineLoop]
  | cons c rest ih =>
    simp only [newlineLoop, ih, List.count_cons]
    split <;> rename_i h
    all_goals simp [h]
    all_goals omega

/-- C5 (amended): the classifier caps the measured length at 1024
characters but counts newline characters over the entire text; with
zero newlines anywhere it classifies minified exactly when the capped
length exceeds 80, and otherwise exactly when the capped length
exceeds 80 times the total newline count. -/
theorem c5_amended_minification_rule (source : List Nat) :
    contentsAreMinified source =
      (if source.count 10 = 0 then decide (min source.length 1024 > 80)
       else decide (min source.length 1024 > 80 * source.count 10)) := by
  have hlen : (if source.length > 1024 then 1024 else source.length) =
      min source.length 1024 := by
    rcases Nat.lt_or_ge 1024 source.length with h | h
    · simp [h, Nat.min_eq_right (Nat.le_of_lt h)]
    · simp [Nat.not_lt.mpr h, Nat.min_eq_left h]
  simp only [contentsAreMinified, newlineLoop_eq_count, Nat.zero_add, hlen]

/-- C1: in permissive mode, when an entry exists for the computed key
and its stored ctime is at least the current ctime while its stored
size equals the current size, the lookup returns exactly the stored
facts, performs no content read, and leaves the cache unchanged; a
repeated lookup of the unchanged file therefore returns the identical
outcome. -/
theorem c1_permissive_hit_no_read (root : AppRootVal) (cache : ChangeCache)
    (path : String) (st : FileStat) (content : List Nat) (e : CacheEntry)
    (hentry : objGet cache (cacheKeyOf root path) = some e)
    (hfile : st.isFile = true)
    (hct : e.ctime ≥ st.ctime) (hsz : e.size = st.size) :
    getHashForPath root false cache path (some st) content =
      ⟨.hit e.info, cache, 1, 0⟩ ∧
    getHashForPath root false
        (getHashForPath root false cache path (some st) content).cache
        path (some st) content =
      getHashForPath root false cache path (some st) content := by
  have h1 : getHashForPath root false cache path (some st) content =
      ⟨.hit e.info, cache, 1, 0⟩ := by
    unfold getHashForPath
    simp [hentry, hfile, hct, hsz]
  refine ⟨h1, ?_⟩
  rw [h1]
  exact h1

/-- Facts record used by the C1 witness entry. -/
def c1Info : FileInfo := ⟨0, false, false, false, false⟩

/-- Witness for C1: a concrete cache holding an entry for `/w.js` with
stored ctime 10 ≥ current ctime 9 and matching size 4 satisfies the
hypotheses, and the lookup returns the stored facts with zero reads
and an unchanged cache. -/
theorem c1_witness :
    objGet [("/w.js", ⟨10, 4, c1Info⟩)] (cacheKeyOf .undefVal "/w.js") =
      some ⟨10, 4, c1Info⟩ ∧
    (10 : Nat) ≥ 9 ∧ (4 : Nat) = 4 ∧
    getHashForPath .undefVal false [("/w.js", ⟨10, 4, c1Info⟩)] "/w.js"
        (some ⟨9, 4, true⟩) [] =
      ⟨.hit c1Info, [("/w.js", ⟨10, 4, c1Info⟩)], 1, 0⟩ :=
  ⟨rfl, by decide, rfl,
   (c1_permissive_hit_no_read .undefVal [("/w.js", ⟨10, 4, c1Info⟩)]
     "/w.js" ⟨9, 4, true⟩ [] ⟨10, 4, c1Info⟩ rfl rfl (by decide) rfl).1⟩

/-- C6: in strict mode the lookup performs no `fs.stat` call, no
content read and no cache mutation, whatever the filesystem would
report; it throws a cache-miss error naming the path when the key has
no entry and returns exactly the stored facts when it has one. -/
theorem c6_strict_no_filesystem (root : AppRootVal) (cache : ChangeCache)
    (path : String) (fileStat : Option FileStat) (content : List Nat) :
    (getHashForPath root true cache path fileStat content).statCalls = 0 ∧
    (getHashForPath root true cache path fileStat content).readCalls = 0 ∧
    (getHashForPath root true cache path fileStat content).cache = cache ∧
    (objGet cache (cacheKeyOf root path) = none →
      (getHashForPath root true cache path fileStat content).result =
        .cacheMissError path) ∧
    (∀ e, objGet cache (cacheKeyOf root path) = some e →
      (getHashForPath root true cache path fileStat content).result =
        .hit e.info) := by
  unfold getHashForPath
  cases h : objGet cache (cacheKeyOf root path) <;> simp [h]

/-- Witness for C6: a strict instance with an empty cache rejects
`/m.js` with a cache-miss error even though the path does not stat,
with zero stat calls and zero reads. -/
theorem c6_witness :
    (getHashForPath .undefVal true [] "/m.js" none []).result =
      .cacheMissError "/m.js" ∧
    (getHashForPath .undefVal true [] "/m.js" none []).statCalls = 0 ∧
    (getHashForPath .undefVal true [] "/m.js" none []).readCalls = 0 :=
  ⟨(c6_strict_no_filesystem .undefVal [] "/m.js" none []).2.2.2.1 rfl,
   (c6_strict_no_filesystem .undefVal [] "/m.js" none []).1,
   (c6_strict_no_filesystem .undefVal [] "/m.js" none []).2.1⟩

/-- The empty string is not classified minified. -/
theorem contentsAreMinified_nil : contentsAreMinified [] = false := rfl

/-- The empty string has no source-map reference. -/
theorem hasSourceMap_nil : hasSourceMap [] = false := rfl

/-- C9: when no supported encoding is detected, `calculateHashForFile`
hashes the raw bytes and returns them as `binaryData` with no
`sourceCode`, and a permissive cache-miss lookup of such a file
returns a binary result whose facts have the raw-byte digest,
`isFileBinary = true`, and the minification and source-map heuristics
evaluated on the empty string (hence `false` and `false`). -/
theorem c9_binary_file_facts (root : AppRootVal) (cache : ChangeCache)
    (path : String) (st : FileStat) (content : List Nat)
    (hfile : st.isFile = true)
    (hmiss : objGet cache (cacheKeyOf root path) = none)
    (hbin : detectFileEncoding content = .undefined) :
    calculateHashForFile content =
      .ok ⟨sha1Digest content, none, some content⟩ ∧
    getHashForPath root false cache path (some st) content =
      ⟨.binaryResult content
         ⟨sha1Digest content, false, isInNodeModules path, false, true⟩,
       objSet cache (cacheKeyOf root path)
         ⟨st.ctime, st.size,
          ⟨sha1Digest content, false, isInNodeModules path, false, true⟩⟩,
       1, 1⟩ := by
  have hcalc : calculateHashForFile content =
      .ok ⟨sha1Digest content, none, some content⟩ := by
    unfold calculateHashForFile
    rw [hbin]
    simp
  refine ⟨hcalc, ?_⟩
  unfold getHashForPath missPath
  simp [hmiss, hfile, hcalc, contentsAreMinified_nil, hasSourceMap_nil]

/-- A 34-byte buffer alternating `0x01 0x00`: its UTF-8 decode is 34
control characters and its UTF-16LE decode is 17 characters of code
point 1, so both decodes trip the early-exit (count > 16) of
`containsControlCharacters` and no encoding is detected. -/
def garbageBytes : List Nat :=
  [1, 0, 1, 0, 1, 0, 1, 0, 1, 0, 1, 0, 1, 0, 1, 0, 1, 0,
   1, 0, 1, 0, 1, 0, 1, 0, 1, 0, 1, 0, 1, 0, 1, 0]

/-- Witness for C9: the alternating buffer is detected as binary, and
the permissive miss lookup returns the binary facts. -/
theorem c9_witness :
    detectFileEncoding garbageBytes = .undefined ∧
    getHashForPath .undefVal false [] "/g.bin" (some ⟨5, 34, true⟩)
        garbageBytes =
      ⟨.binaryResult garbageBytes
         ⟨sha1Digest garbageBytes, false, isInNodeModules "/g.bin", false,
          true⟩,
       objSet [] (cacheKeyOf .undefVal "/g.bin")
         ⟨5, 34,
          ⟨sha1Digest garbageBytes, false, isInNodeModules "/g.bin", false,
           true⟩⟩,
       1, 1⟩ :=
  ⟨by decide,
   (c9_binary_file_facts .undefVal [] "/g.bin" ⟨5, 34, true⟩ garbageBytes
     rfl rfl (by decide)).2⟩

/-- Parsing inverts serialization on the facts record. -/
theorem parseInfo_infoToJson (i : FileInfo) :
    parseInfo (infoToJson i) = some i := rfl

/-- Parsing inverts serialization on one entry. -/
theorem parseEntry_entryToJson (e : CacheEntry) :
    parseEntry (entryToJson e) = some e := rfl

/-- Parsing inverts serialization on the whole mapping. -/
theorem parseFields_roundtrip (m : ChangeCache) :
    parseFields (m.map (fun kv => (kv.1, entryToJson kv.2))) = some m := by
  induction m with
  | nil => rfl
  | cons kv rest ih => simp [parseFields, parseEntry_entryToJson, ih]

/-- C7: loading the saved snapshot of any instance succeeds and
reproduces the mapping exactly — the same keys in the same order, and
for every key the same ctime, size and all five fact fields. -/
theorem c7_load_save_roundtrip (c : FileChangedCache) :
    ∃ c2, loadFromFile (save c) true = some c2 ∧
      c2.changeCache = c.changeCache := by
  refine ⟨⟨.boolVal true, false, c.changeCache⟩, ?_, rfl⟩
  simp [loadFromFile, save, gzipJson, gunzipJson, stringifyCache,
    parseCache, parseFields_roundtrip]

end ElectronCompile
